import Mathlib

/-!
Verification of `scripts/generate_assets_payload.py`.

A shallow embedding of the payload-generator script. Python dict/list/str
values are modelled by the `Json` inductive over `List Char`; the script's
random sampling (`random.choices`, `random.randint`) is modelled by an
arbitrary stream `g : Nat -> Nat` of draws, consumed left to right, so every
theorem quantifies over all possible random outcomes. `json.dumps(payload,
indent=2)` (CPython's encoder with `ensure_ascii=True`, default separators)
is modelled by `dumpJson`.
-/

namespace Aether

/-- Python values produced by the script: strings, lists and dicts
(insertion-ordered association lists), with strings as `List Char`. -/
inductive Json : Type where
  | str : List Char → Json
  | arr : List Json → Json
  | obj : List (List Char × Json) → Json

/-- The hexadecimal alphabet `"0123456789abcdef"` (line 15). -/
def hexAlphabet : List Char := "0123456789abcdef".data

/-- `string.ascii_lowercase`. -/
def asciiLowercase : List Char := "abcdefghijklmnopqrstuvwxyz".data

/-- `string.ascii_uppercase`. -/
def asciiUppercase : List Char := "ABCDEFGHIJKLMNOPQRSTUVWXYZ".data

/-- `string.ascii_letters + string.digits + " "` (line 22). -/
def displayAlphabet : List Char :=
  asciiLowercase ++ asciiUppercase ++ "0123456789".data ++ [' ']

/-- One draw of `random.choices(alphabet, ...)`: the draw `r` selects an
element of the (nonempty) alphabet. -/
def choose1 (alphabet : List Char) (r : Nat) : Char :=
  alphabet.getD (r % alphabet.length) ' '

/-- `random.choices(alphabet, k=k)` fed by stream `g` starting at offset
`off`: `k` independent draws with replacement. -/
def choices (alphabet : List Char) (k : Nat) (g : Nat → Nat) (off : Nat) :
    List Char :=
  (List.range k).map (fun i => choose1 alphabet (g (off + i)))

/-- `random.randint(a, b)` (inclusive bounds) fed by the single draw `r`. -/
def randint (a b r : Nat) : Nat := a + r % (b - a + 1)

/-- Python `str.strip()` on the characters of a string: drop whitespace from
both ends. -/
def pyStrip (l : List Char) : List Char :=
  ((l.dropWhile Char.isWhitespace).reverse.dropWhile Char.isWhitespace).reverse

/-- `generate_hex_checksum` (lines 13-15): 64 draws from the hex alphabet.
Consumes 64 draws of the stream. -/
def generate_hex_checksum (g : Nat → Nat) (off : Nat) : List Char :=
  choices hexAlphabet 64 g off

/-- `generate_display` (lines 18-23): sample a length in `[10, 120]`, build a
string of that length from `displayAlphabet`, strip it. Returns the string
and the number of draws consumed (`1 + length`). -/
def generate_display (g : Nat → Nat) (off : Nat) : List Char × Nat :=
  let length := randint 10 120 (g off)
  (pyStrip (choices displayAlphabet length g (off + 1)), 1 + length)

/-- `generate_extra` (lines 26-62), a direct translation of the dispatch on
`size` with the source's literal dict contents in source order. -/
def generate_extra (size : String) : Json :=
  if size = "none" then Json.obj []
  else if size = "small" then
    Json.obj [("source".data, .str "test_script".data),
              ("version".data, .str "1.0".data),
              ("tags".data, .arr [.str "test".data, .str "generated".data])]
  else if size = "medium" then
    Json.obj [("source".data, .str "test_script".data),
              ("version".data, .str "1.0".data),
              ("tags".data,
                .arr [.str "test".data, .str "generated".data,
                      .str "medium".data]),
              ("metadata".data,
                .obj [("created_by".data, .str "test_user".data),
                      ("project".data, .str "asset_testing".data),
                      ("environment".data, .str "development".data)]),
              ("description".data, .str (List.replicate 200 'A'))]
  else if size = "large" then
    Json.obj [("source".data, .str "test_script".data),
              ("version".data, .str "1.0".data),
              ("tags".data,
                .arr ([.str "test".data, .str "generated".data,
                       .str "large".data] ++
                      (List.range 20).map
                        (fun i => .str ("tag_" ++ toString i).data))),
              ("metadata".data,
                .obj [("created_by".data, .str "test_user".data),
                      ("project".data, .str "asset_testing".data),
                      ("environment".data, .str "development".data),
                      ("config".data,
                        .obj ((List.range 50).map
                          (fun i => (("key_" ++ toString i).data,
                                     Json.str ("value_" ++ toString i).data))))]),
              ("description".data, .str (List.replicate 500 'B')),
              ("notes".data, .str (List.replicate 300 'C'))]
  else Json.obj []

/-- `generate_asset_payload` (lines 65-71): one record with keys `checksum`,
`display`, `extra` in that order. Returns the record and the number of random
draws consumed. -/
def generate_asset_payload (extra_size : String) (g : Nat → Nat) (off : Nat) :
    Json × Nat :=
  let c := generate_hex_checksum g off
  let d := generate_display g (off + 64)
  (Json.obj [("checksum".data, .str c),
             ("display".data, .str d.1),
             ("extra".data, generate_extra extra_size)],
   64 + d.2)

/-- The list comprehension of line 76, threading the random stream through
`k` independently generated assets. -/
def genAssets (k : Nat) (extra_size : String) (g : Nat → Nat) (off : Nat) :
    List Json :=
  match k with
  | 0 => []
  | k + 1 =>
    let p := generate_asset_payload extra_size g off
    p.1 :: genAssets k extra_size g (off + p.2)

/-- `generate_batch_payload` (lines 74-76). `num_assets` is an `Int` because
Python's `int(sys.argv[1])` can be negative; `range(n)` for `n <= 0` is
empty, which `Int.toNat` models. -/
def generate_batch_payload (num_assets : Int) (extra_size : String)
    (g : Nat → Nat) : Json :=
  Json.obj [("assets".data, .arr (genAssets num_assets.toNat extra_size g 0))]

/-! ## The serializer: `json.dumps(payload, indent=2)` -/

/-- Lowercase hex digit. -/
def hexDigit (n : Nat) : Char := hexAlphabet.getD n ' '

/-- Four lowercase hex digits, as in CPython's `\uXXXX` escapes. -/
def toHex4 (n : Nat) : List Char :=
  [hexDigit (n / 4096 % 16), hexDigit (n / 256 % 16),
   hexDigit (n / 16 % 16), hexDigit (n % 16)]

/-- CPython `json` escaping of one character with `ensure_ascii=True`: the
two-character short escapes, printable ASCII verbatim, `\uXXXX` otherwise
(surrogate pairs above the BMP). -/
def escapeChar (c : Char) : List Char :=
  if c = '\\' then ['\\', '\\']
  else if c = '"' then ['\\', '"']
  else if c = Char.ofNat 8 then ['\\', 'b']
  else if c = Char.ofNat 9 then ['\\', 't']
  else if c = Char.ofNat 10 then ['\\', 'n']
  else if c = Char.ofNat 12 then ['\\', 'f']
  else if c = Char.ofNat 13 then ['\\', 'r']
  else if 0x20 ≤ c.toNat ∧ c.toNat ≤ 0x7e then [c]
  else if c.toNat < 0x10000 then '\\' :: 'u' :: toHex4 c.toNat
  else ('\\' :: 'u' :: toHex4 (0xd800 + (c.toNat - 0x10000) / 0x400)) ++
       ('\\' :: 'u' :: toHex4 (0xdc00 + (c.toNat - 0x10000) % 0x400))

/-- Escape every character of a string body. -/
def escapeStr : List Char → List Char
  | [] => []
  | c :: cs => escapeChar c ++ escapeStr cs

/-- The newline-plus-indentation separator at nesting level `lvl` for
`indent=2`. -/
def nlInd (lvl : Nat) : List Char := '\n' :: List.replicate (2 * lvl) ' '

mutual

/-- `json.dumps(v, indent=2)` at nesting level `lvl`: strings are quoted and
escaped; empty containers render as two brackets; nonempty containers put
each item on its own indented line, items separated by commas, keys followed
by a colon and a space. -/
def dumpJson : Json → Nat → List Char
  | .str s, _ => '"' :: (escapeStr s ++ ['"'])
  | .arr [], _ => ['[', ']']
  | .arr (x :: xs), lvl =>
    '[' :: (nlInd (lvl + 1) ++ dumpJson x (lvl + 1) ++ dumpArr xs (lvl + 1) ++
            nlInd lvl ++ [']'])
  | .obj [], _ => ['{', '}']
  | .obj (p :: ps), lvl =>
    '{' :: (nlInd (lvl + 1) ++ dumpPair p (lvl + 1) ++ dumpObj ps (lvl + 1) ++
            nlInd lvl ++ ['}'])

/-- One `"key": value` item of an object. -/
def dumpPair : List Char × Json → Nat → List Char
  | (k, v), lvl => '"' :: (escapeStr k ++ '"' :: ':' :: ' ' :: dumpJson v lvl)

/-- The remaining items of a nonempty array, each preceded by a comma and a
fresh indented line. -/
def dumpArr : List Json → Nat → List Char
  | [], _ => []
  | x :: xs, lvl => ',' :: (nlInd lvl ++ dumpJson x lvl ++ dumpArr xs lvl)

/-- The remaining items of a nonempty object. -/
def dumpObj : List (List Char × Json) → Nat → List Char
  | [], _ => []
  | p :: ps, lvl => ',' :: (nlInd lvl ++ dumpPair p lvl ++ dumpObj ps lvl)

end

/-! ## `format_size` and the reporting in `main` -/

/-- The units the loop of lines 81-84 iterates over. -/
def unitNames : List String := ["B", "KB", "MB", "GB"]

/-- Round to the nearest integer, ties to even — the rounding used by
`f"{x:.2f}"` (the divisions by 1024 are exact in binary floating point, so
the rational value is the float value). -/
def roundHalfEven (q : ℚ) : Int :=
  let f := Int.floor q
  let r := q - f
  if r < 1 / 2 then f
  else if 1 / 2 < r then f + 1
  else if f % 2 = 0 then f else f + 1

/-- `f"{q:.2f}"` for nonnegative `q`: two decimal places. -/
def fmt2 (q : ℚ) : String :=
  let c := (roundHalfEven (q * 100)).toNat
  toString (c / 100) ++ "." ++ (if c % 100 < 10 then "0" else "") ++
    toString (c % 100)

/-- The loop body of `format_size` (lines 79-85): take the first unit under
which the magnitude is below 1024, dividing by 1024 at each step, falling
through to `TB`. -/
def format_size_core : ℚ → List String → String
  | b, [] => fmt2 b ++ " TB"
  | b, u :: us => if b < 1024 then fmt2 b ++ " " ++ u else format_size_core (b / 1024) us

/-- `format_size` (lines 79-85). -/
def format_size (size_bytes : ℚ) : String := format_size_core size_bytes unitNames

/-- UTF-8 byte length of one character (`len(s.encode("utf-8"))` per char). -/
def charUtf8Len (c : Char) : Nat :=
  if c.toNat < 0x80 then 1 else if c.toNat < 0x800 then 2
  else if c.toNat < 0x10000 then 3 else 4

/-- UTF-8 byte length of a string. -/
def utf8Len (l : List Char) : Nat := (l.map charUtf8Len).sum

/-- The observable outcome of one run of `main`: the exit status, the file
written (name and contents), if any, and the lines printed in order. -/
structure MainResult : Type where
  exitCode : Nat
  written : Option (String × List Char)
  output : List String

/-- The valid size tiers of line 92. -/
def validSizes : List String := ["none", "small", "medium", "large"]

/-- A single-quote character, as a string. -/
def squote : String := (Char.ofNat 39).toString

/-- `main` (lines 88-114) after argument parsing: `num_assets` is the parsed
first argument (default 1000) and `extra_size` the second (default
`"small"`). The tier check happens before any generation; on failure nothing
is generated or written and the process exits with status 1. -/
def main (num_assets : Int) (extra_size : String) (g : Nat → Nat) :
    MainResult :=
  if extra_size ∈ validSizes then
    let payload := generate_batch_payload num_assets extra_size g
    let json_str := dumpJson payload 0
    let filename := "assets_" ++ toString num_assets ++ "_" ++ extra_size ++ ".json"
    let size := utf8Len json_str
    { exitCode := 0
      written := some (filename, json_str)
      output :=
        ["Generating " ++ toString num_assets ++ " assets with " ++ squote ++
           extra_size ++ squote ++ " extra data...",
         "✓ Generated: " ++ filename,
         "✓ Size: " ++ format_size (size : ℚ),
         "✓ Assets: " ++ toString num_assets,
         "\nTo test with curl:",
         "curl -X POST http://localhost:8080/api/assets \\",
         "  -H \"Content-Type: application/json\" \\",
         "  -d @" ++ filename] }
  else
    { exitCode := 1
      written := none
      output := ["Invalid extra_size: " ++ extra_size,
                 "Valid options: none, small, medium, large"] }

/-! ## Claim-support definitions -/

/-- Lookup in an insertion-ordered association list (Python dict access). -/
def lookupL (k : List Char) : List (List Char × Json) → Option Json
  | [] => none
  | p :: ps => if p.1 = k then some p.2 else lookupL k ps

/-- Lookup of a key in a `Json` object. -/
def lookupJ (k : String) : Json → Option Json
  | .obj l => lookupL k.data l
  | _ => none

/-- The shape of one generated record: `checksum`, `display`, `extra`. -/
def assetJson (checksum display : List Char) (tier : String) : Json :=
  Json.obj [("checksum".data, .str checksum),
            ("display".data, .str display),
            ("extra".data, generate_extra tier)]

/-- The shape of the generated document for a list of
(checksum, display) pairs, all with the same tier. -/
def batchJson (ps : List (List Char × List Char)) (tier : String) : Json :=
  Json.obj [("assets".data, .arr (ps.map (fun p => assetJson p.1 p.2 tier)))]

/-- A character the serializer emits verbatim inside a quoted string:
printable ASCII that is neither a quote nor a backslash. Every character the
generators can produce satisfies this. -/
def SafeChar (c : Char) : Prop :=
  0x20 ≤ c.toNat ∧ c.toNat ≤ 0x7e ∧ c ≠ '"' ∧ c ≠ '\\'

instance : DecidablePred SafeChar := fun c => by
  unfold SafeChar; infer_instance

/-- A string of safe characters. -/
def SafeStr (l : List Char) : Prop := ∀ c ∈ l, SafeChar c

/-! ## A parser for the serialized output

The parser is specialised to the document grammar the script emits: it
recovers, from the serialized text alone, the checksum, display and tier of
every record. Round-trip with `dumpJson` is proved below. -/

/-- Consume an expected literal prefix, returning the remainder. -/
def matchLit : List Char → List Char → Option (List Char)
  | [], s => some s
  | _ :: _, [] => none
  | a :: as, b :: bs => if a = b then matchLit as bs else none

/-- Consume a string body up to the closing quote. -/
def parseJString : List Char → Option (List Char × List Char)
  | [] => none
  | c :: rest =>
    if c = '"' then some ([], rest)
    else match parseJString rest with
         | some (s, r) => some (c :: s, r)
         | none => none

/-- The serialized form of a tier's `extra` structure, at its nesting level
inside the document. -/
def extraText (tier : String) : List Char := dumpJson (generate_extra tier) 3

/-- Recognise which tier's fixed `extra` text begins the input. The four
texts are pairwise non-prefixes of one another, so at most one succeeds. -/
def parseTier (s : List Char) : Option (String × List Char) :=
  match matchLit (extraText "none") s with
  | some r => some ("none", r)
  | none =>
  match matchLit (extraText "small") s with
  | some r => some ("small", r)
  | none =>
  match matchLit (extraText "medium") s with
  | some r => some ("medium", r)
  | none =>
  match matchLit (extraText "large") s with
  | some r => some ("large", r)
  | none => none

/-- Text between the opening brace of a record and its checksum value. -/
def assetOpen : List Char := '{' :: (nlInd 3 ++ "\"checksum\": \"".data)

/-- Text between the checksum value and the display value. -/
def dispKey : List Char := ',' :: (nlInd 3 ++ "\"display\": \"".data)

/-- Text between the display value and the extra structure. -/
def extraKey : List Char := ',' :: (nlInd 3 ++ "\"extra\": ".data)

/-- Text closing a record. -/
def assetClose : List Char := nlInd 2 ++ ['}']

/-- Separator between records of the `assets` array. -/
def assetSep : List Char := ',' :: nlInd 2

/-- Document text up to the `assets` array. -/
def batchOpen : List Char := '{' :: (nlInd 1 ++ "\"assets\": ".data)

/-- Opening of a nonempty `assets` array. -/
def arrOpen : List Char := '[' :: nlInd 2

/-- Closing of a nonempty `assets` array. -/
def arrClose : List Char := nlInd 1 ++ [']']

/-- Document text after the `assets` array. -/
def batchClose : List Char := nlInd 0 ++ ['}']

/-- Parse one record, returning its checksum, display and tier. -/
def parseAsset (s : List Char) :
    Option ((List Char × List Char × String) × List Char) :=
  match matchLit assetOpen s with
  | none => none
  | some s1 =>
  match parseJString s1 with
  | none => none
  | some (c, s2) =>
  match matchLit dispKey s2 with
  | none => none
  | some s3 =>
  match parseJString s3 with
  | none => none
  | some (d, s4) =>
  match matchLit extraKey s4 with
  | none => none
  | some s5 =>
  match parseTier s5 with
  | none => none
  | some (t, s6) =>
  match matchLit assetClose s6 with
  | none => none
  | some s7 => some ((c, d, t), s7)

/-- Parse one or more records separated by `assetSep`, with fuel. -/
def parseAssetsAux :
    Nat → List Char → Option (List (List Char × List Char × String) × List Char)
  | 0, _ => none
  | fuel + 1, s =>
    match parseAsset s with
    | none => none
    | some (a, rest) =>
      match matchLit assetSep rest with
      | some r2 =>
        match parseAssetsAux fuel r2 with
        | some (l, r) => some (a :: l, r)
        | none => none
      | none => some ([a], rest)

/-- Parse a whole serialized document, recovering every record's checksum,
display and tier. Requires the entire input to be consumed. -/
def parseBatch (s : List Char) :
    Option (List (List Char × List Char × String)) :=
  match matchLit batchOpen s with
  | none => none
  | some s1 =>
  match matchLit (['[', ']'] ++ batchClose) s1 with
  | some r => if r = [] then some [] else none
  | none =>
  match matchLit arrOpen s1 with
  | none => none
  | some s2 =>
  match parseAssetsAux s.length s2 with
  | none => none
  | some (l, s3) =>
  match matchLit (arrClose ++ batchClose) s3 with
  | none => none
  | some s4 => if s4 = [] then some l else none

/-! ## Helper lemmas -/

theorem genAssets_length (tier : String) (g : Nat → Nat) :
    ∀ (k off : Nat), (genAssets k tier g off).length = k
  | 0, _ => rfl
  | k + 1, off => by
    simp only [genAssets, List.length_cons, genAssets_length tier g k]

theorem choose1_mem (alphabet : List Char) (h : alphabet ≠ []) (r : Nat) :
    choose1 alphabet r ∈ alphabet := by
  unfold choose1
  have hlt : r % alphabet.length < alphabet.length :=
    Nat.mod_lt _ (List.length_pos.mpr h)
  rw [List.getD_eq_getElem _ _ hlt]
  exact List.getElem_mem hlt

theorem choices_length (alphabet : List Char) (k : Nat) (g : Nat → Nat)
    (off : Nat) : (choices alphabet k g off).length = k := by
  simp [choices]

theorem choices_mem (alphabet : List Char) (h : alphabet ≠ []) (k : Nat)
    (g : Nat → Nat) (off : Nat) :
    ∀ c ∈ choices alphabet k g off, c ∈ alphabet := by
  intro c hc
  simp only [choices, List.mem_map] at hc
  obtain ⟨i, _, rfl⟩ := hc
  exact choose1_mem alphabet h _

theorem pyStrip_length_le (l : List Char) : (pyStrip l).length ≤ l.length := by
  unfold pyStrip
  rw [List.length_reverse]
  calc ((l.dropWhile Char.isWhitespace).reverse.dropWhile
          Char.isWhitespace).length
      ≤ (l.dropWhile Char.isWhitespace).reverse.length :=
        (List.dropWhile_sublist _).length_le
    _ = (l.dropWhile Char.isWhitespace).length := List.length_reverse _
    _ ≤ l.length := (List.dropWhile_sublist _).length_le

theorem pyStrip_mem (l : List Char) (c : Char) (h : c ∈ pyStrip l) :
    c ∈ l := by
  unfold pyStrip at h
  rw [List.mem_reverse] at h
  have h1 := (List.dropWhile_sublist (l := (l.dropWhile
    Char.isWhitespace).reverse) Char.isWhitespace).mem h
  rw [List.mem_reverse] at h1
  exact (List.dropWhile_sublist _).mem h1

theorem head_dropWhile_ws (l : List Char) (c : Char)
    (h : (l.dropWhile Char.isWhitespace).head? = some c) :
    c.isWhitespace = false := by
  have h0 := List.head?_dropWhile_not Char.isWhitespace l
  rw [h] at h0
  exact h0

theorem pyStrip_head (l : List Char) (c : Char)
    (h : (pyStrip l).head? = some c) : c.isWhitespace = false := by
  unfold pyStrip at h
  rw [List.head?_reverse] at h
  have hne : (l.dropWhile Char.isWhitespace).reverse.dropWhile
      Char.isWhitespace ≠ [] := by
    intro e
    rw [e] at h
    exact Option.noConfusion h
  have hsplit := List.takeWhile_append_dropWhile
    (p := Char.isWhitespace) (l := (l.dropWhile Char.isWhitespace).reverse)
  have h2 : ((l.dropWhile Char.isWhitespace).reverse).getLast? = some c := by
    rw [← hsplit]
    rw [List.getLast?_append_of_ne_nil _ hne]
    exact h
  rw [List.getLast?_reverse] at h2
  exact head_dropWhile_ws l c h2

theorem pyStrip_getLast (l : List Char) (c : Char)
    (h : (pyStrip l).getLast? = some c) : c.isWhitespace = false := by
  unfold pyStrip at h
  rw [List.getLast?_reverse] at h
  exact head_dropWhile_ws _ c h

/-! ## Round-trip lemmas for the serializer and parser -/

theorem matchLit_append : ∀ (l s : List Char), matchLit l (l ++ s) = some s
  | [], _ => rfl
  | a :: as, s => by
    simp only [List.cons_append, matchLit, if_pos rfl]
    exact matchLit_append as s

theorem escapeChar_eq_self (c : Char) (h : SafeChar c) : escapeChar c = [c] := by
  obtain ⟨h1, h2, h3, h4⟩ := h
  have e8 : c ≠ Char.ofNat 8 := by
    intro e; rw [e] at h1; exact absurd h1 (by decide)
  have e9 : c ≠ Char.ofNat 9 := by
    intro e; rw [e] at h1; exact absurd h1 (by decide)
  have e10 : c ≠ Char.ofNat 10 := by
    intro e; rw [e] at h1; exact absurd h1 (by decide)
  have e12 : c ≠ Char.ofNat 12 := by
    intro e; rw [e] at h1; exact absurd h1 (by decide)
  have e13 : c ≠ Char.ofNat 13 := by
    intro e; rw [e] at h1; exact absurd h1 (by decide)
  unfold escapeChar
  rw [if_neg h4, if_neg h3, if_neg e8, if_neg e9, if_neg e10, if_neg e12,
    if_neg e13, if_pos ⟨h1, h2⟩]

theorem escapeStr_eq_self : ∀ (l : List Char), SafeStr l → escapeStr l = l
  | [], _ => rfl
  | c :: cs, h => by
    rw [escapeStr, escapeChar_eq_self c (h c (List.mem_cons_self c cs)),
      escapeStr_eq_self cs (fun x hx => h x (List.mem_cons_of_mem c hx))]
    rfl

theorem parseJString_append :
    ∀ (s r : List Char), (∀ c ∈ s, c ≠ '"') →
      parseJString (s ++ '"' :: r) = some (s, r)
  | [], r, _ => by simp [parseJString]
  | c :: cs, r, h => by
    rw [List.cons_append, parseJString,
      if_neg (h c (List.mem_cons_self c cs)),
      parseJString_append cs r (fun x hx => h x (List.mem_cons_of_mem c hx))]

set_option maxRecDepth 20000 in
theorem matchLit_none_small (r : List Char) :
    matchLit (extraText "none") (extraText "small" ++ r) = none := rfl

set_option maxRecDepth 20000 in
theorem matchLit_none_medium (r : List Char) :
    matchLit (extraText "none") (extraText "medium" ++ r) = none := rfl

set_option maxRecDepth 20000 in
theorem matchLit_none_large (r : List Char) :
    matchLit (extraText "none") (extraText "large" ++ r) = none := rfl

set_option maxRecDepth 20000 in
theorem matchLit_small_medium (r : List Char) :
    matchLit (extraText "small") (extraText "medium" ++ r) = none := rfl

set_option maxRecDepth 20000 in
theorem matchLit_small_large (r : List Char) :
    matchLit (extraText "small") (extraText "large" ++ r) = none := rfl

set_option maxRecDepth 20000 in
theorem matchLit_medium_large (r : List Char) :
    matchLit (extraText "medium") (extraText "large" ++ r) = none := rfl

theorem parseTier_extra (t : String) (ht : t ∈ validSizes) (r : List Char) :
    parseTier (extraText t ++ r) = some (t, r) := by
  simp only [validSizes, List.mem_cons, List.not_mem_nil, or_false] at ht
  rcases ht with rfl | rfl | rfl | rfl
  · unfold parseTier
    rw [matchLit_append]
  · unfold parseTier
    rw [matchLit_none_small, matchLit_append]
  · unfold parseTier
    rw [matchLit_none_medium, matchLit_small_medium, matchLit_append]
  · unfold parseTier
    rw [matchLit_none_large, matchLit_small_large, matchLit_medium_large,
      matchLit_append]

theorem escapeStr_checksum :
    escapeStr ['c', 'h', 'e', 'c', 'k', 's', 'u', 'm'] =
      ['c', 'h', 'e', 'c', 'k', 's', 'u', 'm'] := rfl

theorem escapeStr_display :
    escapeStr ['d', 'i', 's', 'p', 'l', 'a', 'y'] =
      ['d', 'i', 's', 'p', 'l', 'a', 'y'] := rfl

theorem escapeStr_extra :
    escapeStr ['e', 'x', 't', 'r', 'a'] = ['e', 'x', 't', 'r', 'a'] := rfl

theorem assetOpen_decomp :
    assetOpen = '{' :: (nlInd 3 ++ ('"' :: ("checksum".data ++
      '"' :: ':' :: ' ' :: ['"']))) := rfl

theorem dispKey_decomp :
    dispKey = ',' :: (nlInd 3 ++ ('"' :: ("display".data ++
      '"' :: ':' :: ' ' :: ['"']))) := rfl

theorem extraKey_decomp :
    extraKey = ',' :: (nlInd 3 ++ ('"' :: ("extra".data ++
      '"' :: ':' :: ' ' :: []))) := rfl

/-- The serialized text of one record, decomposed into the parser's
literals. -/
theorem dump_asset (c d : List Char) (t : String) (r : List Char)
    (hc : SafeStr c) (hd : SafeStr d) :
    dumpJson (assetJson c d t) 2 ++ r =
      assetOpen ++ (c ++ ('"' :: (dispKey ++ (d ++ ('"' :: (extraKey ++
        (extraText t ++ (assetClose ++ r)))))))) := by
  simp only [assetJson, dumpJson, dumpPair, dumpObj, extraText,
    escapeStr_checksum, escapeStr_display, escapeStr_extra,
    escapeStr_eq_self c hc, escapeStr_eq_self d hd,
    assetOpen_decomp, dispKey_decomp, extraKey_decomp, assetClose,
    Nat.reduceAdd, List.cons_append, List.append_assoc, List.append_nil,
    List.nil_append]

/-- Parsing one serialized record recovers its checksum, display and tier,
leaving the trailing text untouched. -/
theorem parseAsset_dump (c d : List Char) (t : String)
    (hc : SafeStr c) (hd : SafeStr d) (ht : t ∈ validSizes) (r : List Char) :
    parseAsset (dumpJson (assetJson c d t) 2 ++ r) = some ((c, d, t), r) := by
  have hq1 : ∀ x ∈ c, x ≠ '"' := fun x hx => (hc x hx).2.2.1
  have hq2 : ∀ x ∈ d, x ≠ '"' := fun x hx => (hd x hx).2.2.1
  have e1 := parseJString_append c
    (dispKey ++ (d ++ '"' :: (extraKey ++ (extraText t ++ (assetClose ++ r)))))
    hq1
  have e2 := parseJString_append d
    (extraKey ++ (extraText t ++ (assetClose ++ r))) hq2
  rw [dump_asset c d t r hc hd]
  unfold parseAsset
  simp only [matchLit_append, e1, e2, parseTier_extra t ht]

theorem matchLit_sep_close :
    matchLit assetSep (arrClose ++ batchClose) = none := rfl

theorem matchLit_sep_next (z : List Char) :
    matchLit assetSep (',' :: (nlInd 2 ++ z)) = some z := rfl

theorem escapeStr_assets_key :
    escapeStr ['a', 's', 's', 'e', 't', 's'] = ['a', 's', 's', 'e', 't', 's'] :=
  rfl

/-- Parsing the serialized records of a nonempty `assets` array, up to the
closing of the document. -/
theorem parseAux_dump (t : String) (ht : t ∈ validSizes) :
    ∀ (ps : List (List Char × List Char)) (p : List Char × List Char)
      (fuel : Nat), ps.length < fuel → SafeStr p.1 → SafeStr p.2 →
      (∀ q ∈ ps, SafeStr q.1 ∧ SafeStr q.2) →
      parseAssetsAux fuel
        (dumpJson (assetJson p.1 p.2 t) 2 ++
          (dumpArr (ps.map (fun q => assetJson q.1 q.2 t)) 2 ++
            (arrClose ++ batchClose))) =
        some ((p :: ps).map (fun q => (q.1, q.2, t)), arrClose ++ batchClose)
  | [], p, fuel, hf, hp1, hp2, _ => by
    obtain ⟨f, rfl⟩ : ∃ f, fuel = f + 1 := ⟨fuel - 1, by omega⟩
    simp only [List.map_nil, dumpArr, List.nil_append, parseAssetsAux,
      parseAsset_dump p.1 p.2 t hp1 hp2 ht, matchLit_sep_close,
      List.map_cons]
  | q :: qs, p, fuel, hf, hp1, hp2, hqs => by
    obtain ⟨f, rfl⟩ : ∃ f, fuel = f + 1 := ⟨fuel - 1, by omega⟩
    have hrec := parseAux_dump t ht qs q f
      (by simpa using Nat.lt_of_succ_lt_succ hf)
      (hqs q (List.mem_cons_self q qs)).1
      (hqs q (List.mem_cons_self q qs)).2
      (fun x hx => hqs x (List.mem_cons_of_mem q hx))
    simp only [List.map_cons, dumpArr, List.cons_append,
      List.append_assoc] at hrec ⊢
    simp only [parseAssetsAux,
      parseAsset_dump p.1 p.2 t hp1 hp2 ht, matchLit_sep_next, hrec]

/-- Each record of a nonempty array contributes at least one character. -/
theorem dumpArr_length_ge :
    ∀ (xs : List Json) (lvl : Nat), xs.length ≤ (dumpArr xs lvl).length
  | [], _ => Nat.le_refl 0
  | x :: xs, lvl => by
    simp only [dumpArr, List.length_cons, List.length_append]
    have := dumpArr_length_ge xs lvl
    omega

/-- The serialized document, decomposed into the parser's literals. -/
theorem dump_batch (ps : List (List Char × List Char)) (t : String) :
    dumpJson (batchJson ps t) 0 =
      batchOpen ++
        (dumpJson (Json.arr (ps.map (fun q => assetJson q.1 q.2 t))) 1 ++
          batchClose) := by
  simp only [batchJson, dumpJson, dumpPair, dumpObj, batchOpen, batchClose,
    escapeStr_assets_key, Nat.reduceAdd, List.cons_append, List.append_assoc,
    List.append_nil, List.nil_append]

/-- Parsing the whole serialized document recovers every record. -/
theorem parseBatch_dump (t : String) (ht : t ∈ validSizes)
    (ps : List (List Char × List Char))
    (hs : ∀ q ∈ ps, SafeStr q.1 ∧ SafeStr q.2) :
    parseBatch (dumpJson (batchJson ps t) 0) =
      some (ps.map (fun q => (q.1, q.2, t))) := by
  rw [dump_batch ps t]
  cases ps with
  | nil =>
    have h2 : matchLit (['[', ']'] ++ batchClose)
        (dumpJson (Json.arr []) 1 ++ batchClose) = some [] := rfl
    unfold parseBatch
    simp only [List.map_nil, matchLit_append, h2]
    simp
  | cons p qs =>
    have harr : dumpJson (Json.arr ((p :: qs).map
        (fun q => assetJson q.1 q.2 t))) 1 ++ batchClose =
        '[' :: (nlInd 2 ++ (dumpJson (assetJson p.1 p.2 t) 2 ++
          (dumpArr (qs.map (fun q => assetJson q.1 q.2 t)) 2 ++
            (arrClose ++ batchClose)))) := by
      simp only [List.map_cons, dumpJson, arrClose, Nat.reduceAdd,
        List.cons_append, List.append_assoc]
    rw [harr]
    have hlen : qs.length <
        (batchOpen ++ ('[' :: (nlInd 2 ++ (dumpJson (assetJson p.1 p.2 t) 2 ++
          (dumpArr (qs.map (fun q => assetJson q.1 q.2 t)) 2 ++
            (arrClose ++ batchClose)))))).length := by
      simp only [List.length_append, List.length_cons]
      have := dumpArr_length_ge (qs.map (fun q => assetJson q.1 q.2 t)) 2
      simp only [List.length_map] at this
      omega
    have hrec := parseAux_dump t ht qs p
      (batchOpen ++ ('[' :: (nlInd 2 ++ (dumpJson (assetJson p.1 p.2 t) 2 ++
        (dumpArr (qs.map (fun q => assetJson q.1 q.2 t)) 2 ++
          (arrClose ++ batchClose)))))).length
      hlen
      (hs p (List.mem_cons_self p qs)).1
      (hs p (List.mem_cons_self p qs)).2
      (fun x hx => hs x (List.mem_cons_of_mem p hx))
    have hne : ∀ z : List Char,
        matchLit (['[', ']'] ++ batchClose) ('[' :: (nlInd 2 ++ z)) = none :=
      fun _ => rfl
    have hop : ∀ z : List Char,
        matchLit arrOpen ('[' :: (nlInd 2 ++ z)) = some z :=
      fun _ => rfl
    have hcl : matchLit (arrClose ++ batchClose) (arrClose ++ batchClose) =
        some [] := by
      have h0 := matchLit_append (arrClose ++ batchClose) []
      rwa [List.append_nil] at h0
    unfold parseBatch
    simp only [matchLit_append, hne, hop, hrec, hcl, List.map_cons]
    simp

theorem hexAlphabet_safe : ∀ c ∈ hexAlphabet, SafeChar c := by decide

theorem displayAlphabet_safe : ∀ c ∈ displayAlphabet, SafeChar c := by decide

/-- Every generated asset record has the `assetJson` shape, with safe
checksum and display strings. -/
theorem genAssets_shape (tier : String) (g : Nat → Nat) :
    ∀ (k off : Nat), ∃ ps : List (List Char × List Char),
      genAssets k tier g off = ps.map (fun q => assetJson q.1 q.2 tier) ∧
      ps.length = k ∧ (∀ q ∈ ps, SafeStr q.1 ∧ SafeStr q.2)
  | 0, _ => ⟨[], rfl, rfl, by simp⟩
  | k + 1, off => by
    obtain ⟨ps, h1, h2, h3⟩ := genAssets_shape tier g k
      (off + (generate_asset_payload tier g off).2)
    refine ⟨(generate_hex_checksum g off,
      (generate_display g (off + 64)).1) :: ps, ?_, ?_, ?_⟩
    · show (generate_asset_payload tier g off).1 ::
        genAssets k tier g (off + (generate_asset_payload tier g off).2) = _
      rw [h1, List.map_cons]
      rfl
    · simp [h2]
    · intro q hq
      rcases List.mem_cons.mp hq with rfl | hq2
      · refine ⟨?_, ?_⟩
        · intro c hc
          exact hexAlphabet_safe c
            (choices_mem hexAlphabet (by decide) 64 g off c hc)
        · intro c hc
          simp only [generate_display] at hc
          exact displayAlphabet_safe c
            (choices_mem displayAlphabet (by decide) _ g (off + 64 + 1) c
              (pyStrip_mem _ c hc))
      · exact h3 q hq2

/-! ## Claim theorems -/

/-- C1: for every requested count `N ≥ 0` and every valid tier, the batch's
`assets` sequence has exactly `N` independently generated entries; `N = 0`
gives an empty sequence and is not an error. -/
theorem batch_has_exactly_n_assets (n : Int) (hn : 0 ≤ n) (tier : String)
    (ht : tier ∈ validSizes) (g : Nat → Nat) :
    ∃ l, generate_batch_payload n tier g =
        Json.obj [("assets".data, Json.arr l)] ∧ (l.length : Int) = n := by
  refine ⟨genAssets n.toNat tier g 0, rfl, ?_⟩
  rw [genAssets_length]
  exact Int.toNat_of_nonneg hn

theorem batch_has_exactly_n_assets_witness :
    ∃ l, generate_batch_payload 2 "small" (fun _ => 0) =
        Json.obj [("assets".data, Json.arr l)] ∧ (l.length : Int) = 2 :=
  batch_has_exactly_n_assets 2 (by decide) "small" (by decide) (fun _ => 0)

/-- C2: the fixed shapes per tier: `none` is empty; `small` has exactly the
three literal keys; `medium`'s description is 200 `'A'`s; `large`'s
`metadata.config` has the 50 entries `key_i -> value_i`, its notes are 300
`'C'`s and its description 500 `'B'`s. -/
theorem extra_shapes_per_tier :
    generate_extra "none" = Json.obj [] ∧
    generate_extra "small" =
      Json.obj [("source".data, .str "test_script".data),
                ("version".data, .str "1.0".data),
                ("tags".data, .arr [.str "test".data, .str "generated".data])] ∧
    lookupJ "description" (generate_extra "medium") =
      some (.str (List.replicate 200 'A')) ∧
    (List.replicate 200 'A').length = 200 ∧
    (∃ m, lookupJ "metadata" (generate_extra "large") = some m ∧
      lookupJ "config" m =
        some (Json.obj ((List.range 50).map
          (fun i => (("key_" ++ toString i).data,
                     Json.str ("value_" ++ toString i).data)))) ∧
      ((List.range 50).map
          (fun i => (("key_" ++ toString i).data,
                     Json.str ("value_" ++ toString i).data))).length = 50) ∧
    lookupJ "notes" (generate_extra "large") =
      some (.str (List.replicate 300 'C')) ∧
    (List.replicate 300 'C').length = 300 ∧
    lookupJ "description" (generate_extra "large") =
      some (.str (List.replicate 500 'B')) ∧
    (List.replicate 500 'B').length = 500 := by
  refine ⟨rfl, rfl, rfl, List.length_replicate 200 'A',
    ⟨_, rfl, rfl, by rw [List.length_map, List.length_range]⟩,
    rfl, List.length_replicate 300 'C', rfl, List.length_replicate 500 'B'⟩

/-- C3 counterexample: in tier `large` the `tags` list is not
`["test", "generated"]` followed by `tag_0 .. tag_19` — the code inserts a
third literal `"large"` before the generated tags. -/
theorem large_tags_claim_false :
    lookupJ "tags" (generate_extra "large") ≠
      some (Json.arr ([Json.str "test".data, Json.str "generated".data] ++
        (List.range 20).map (fun i => Json.str ("tag_" ++ toString i).data))) := by
  intro h
  have h0 : lookupJ "tags" (generate_extra "large") =
      some (Json.arr ([Json.str "test".data, Json.str "generated".data,
        Json.str "large".data] ++
        (List.range 20).map
          (fun i => Json.str ("tag_" ++ toString i).data))) := rfl
  rw [h0] at h
  have h1 := Json.arr.inj (Option.some.inj h)
  have h2 := congrArg List.length h1
  simp at h2

/-- C3 amended: in tier `large` the `tags` list equals
`["test", "generated", "large"]` followed by the 20 generated strings
`tag_0 .. tag_19`: 23 elements in total. -/
theorem large_tags_amended :
    lookupJ "tags" (generate_extra "large") =
      some (Json.arr ([Json.str "test".data, Json.str "generated".data,
        Json.str "large".data] ++
        (List.range 20).map
          (fun i => Json.str ("tag_" ++ toString i).data))) ∧
    ([Json.str "test".data, Json.str "generated".data,
        Json.str "large".data] ++
        (List.range 20).map
          (fun i => Json.str ("tag_" ++ toString i).data)).length = 23 := by
  exact ⟨rfl, by simp⟩

/-- C4: every generated checksum has exactly 64 characters, all drawn from
`0123456789abcdef`; the generator is total over every random stream. -/
theorem checksum_is_64_hex (g : Nat → Nat) (off : Nat) :
    (generate_hex_checksum g off).length = 64 ∧
    ∀ c ∈ generate_hex_checksum g off, c ∈ hexAlphabet :=
  ⟨choices_length hexAlphabet 64 g off,
   choices_mem hexAlphabet (by decide) 64 g off⟩

theorem checksum_is_64_hex_witness :
    (generate_hex_checksum (fun _ => 0) 0).length = 64 ∧ '0' ∈ hexAlphabet :=
  ⟨(checksum_is_64_hex (fun _ => 0) 0).1,
   (checksum_is_64_hex (fun _ => 0) 0).2 '0' (by decide)⟩

/-- C5: the display generator samples a length in `[10, 120]`, draws that
many characters from letters, digits and space, and strips the result; the
returned string is at most the sampled length, uses only that alphabet, and
has no leading or trailing whitespace. -/
theorem display_name_properties (g : Nat → Nat) (off : Nat) :
    10 ≤ randint 10 120 (g off) ∧ randint 10 120 (g off) ≤ 120 ∧
    (generate_display g off).1 =
      pyStrip (choices displayAlphabet (randint 10 120 (g off)) g (off + 1)) ∧
    (generate_display g off).1.length ≤ randint 10 120 (g off) ∧
    (∀ c ∈ (generate_display g off).1, c ∈ displayAlphabet) ∧
    (∀ c, (generate_display g off).1.head? = some c →
      c.isWhitespace = false) ∧
    (∀ c, (generate_display g off).1.getLast? = some c →
      c.isWhitespace = false) := by
  refine ⟨?_, ?_, rfl, ?_, ?_, ?_, ?_⟩
  · unfold randint; omega
  · unfold randint; omega
  · calc (generate_display g off).1.length
        ≤ (choices displayAlphabet (randint 10 120 (g off)) g
            (off + 1)).length := pyStrip_length_le _
      _ = randint 10 120 (g off) := choices_length _ _ _ _
  · intro c hc
    exact choices_mem displayAlphabet (by decide) _ g (off + 1) c
      (pyStrip_mem _ c hc)
  · intro c hc
    exact pyStrip_head _ c hc
  · intro c hc
    exact pyStrip_getLast _ c hc

theorem display_name_properties_witness :
    10 ≤ randint 10 120 ((fun _ => (0 : Nat)) 0) ∧
    'a' ∈ displayAlphabet :=
  ⟨(display_name_properties (fun _ => 0) 0).1,
   (display_name_properties (fun _ => 0) 0).2.2.2.2.1 'a' (by decide)⟩

/-- C6: an unrecognised tier makes the program print an error naming the
value, print the valid options, exit with status 1, and write no file. -/
theorem invalid_tier_exits_without_writing (n : Int) (tier : String)
    (g : Nat → Nat) (h : tier ∉ validSizes) :
    main n tier g =
      { exitCode := 1, written := none,
        output := ["Invalid extra_size: " ++ tier,
                   "Valid options: none, small, medium, large"] } ∧
    (main n tier g).exitCode ≠ 0 := by
  have hm : main n tier g =
      { exitCode := 1, written := none,
        output := ["Invalid extra_size: " ++ tier,
                   "Valid options: none, small, medium, large"] } := by
    unfold main
    rw [if_neg h]
  exact ⟨hm, by rw [hm]; simp⟩

theorem invalid_tier_exits_without_writing_witness :
    main 3 "bogus" (fun _ => 0) =
      { exitCode := 1, written := none,
        output := ["Invalid extra_size: " ++ "bogus",
                   "Valid options: none, small, medium, large"] } ∧
    (main 3 "bogus" (fun _ => 0)).exitCode ≠ 0 :=
  invalid_tier_exits_without_writing 3 "bogus" (fun _ => 0) (by decide)

/-- C8: `format_size` walks the units B, KB, MB, GB, TB, dividing by 1024 at
each step, and stops at the first unit whose magnitude is below 1024; for
`b < 1024^4` the displayed magnitude is below 1024, for `b ≥ 1024^4` the
unit is TB; the magnitude is rendered with two decimal places (`fmt2`). -/
theorem format_size_selects_largest_unit (n : Nat) :
    ∃ k, k ≤ 4 ∧
      format_size (n : ℚ) =
        fmt2 ((n : ℚ) / 1024 ^ k) ++ [" B", " KB", " MB", " GB", " TB"].getD k " TB" ∧
      (∀ j < k, 1024 ≤ (n : ℚ) / 1024 ^ j) ∧
      (n < 1024 ^ 4 → (n : ℚ) / 1024 ^ k < 1024) ∧
      (1024 ^ 4 ≤ n → k = 4) := by
  have q0 : (0 : ℚ) < 1024 := by norm_num
  rcases Nat.lt_or_ge n 1024 with h1 | h1
  · have hc : (n : ℚ) < 1024 := by exact_mod_cast h1
    refine ⟨0, by norm_num, ?_, ?_, ?_, ?_⟩
    · rw [pow_zero, div_one]
      simp only [format_size, unitNames, format_size_core, if_pos hc]
      rw [String.append_assoc]
      rfl
    · intro j hj
      exact absurd hj (Nat.not_lt_zero j)
    · intro _
      rw [pow_zero, div_one]
      exact hc
    · intro h4
      norm_num at h4
      omega
  rcases Nat.lt_or_ge n (1024 ^ 2) with h2 | h2
  · have hc0 : ¬((n : ℚ) < 1024) := not_lt.mpr (by exact_mod_cast h1)
    have hc1 : (n : ℚ) / 1024 < 1024 := by
      rw [div_lt_iff₀ q0]
      norm_num at h2 ⊢
      exact_mod_cast h2
    refine ⟨1, by norm_num, ?_, ?_, ?_, ?_⟩
    · simp only [format_size, unitNames, format_size_core, if_neg hc0,
        if_pos hc1, pow_one]
      rw [String.append_assoc]
      rfl
    · intro j hj
      interval_cases j
      rw [pow_zero, div_one]
      exact_mod_cast h1
    · intro _
      rw [pow_one]
      exact hc1
    · intro h4
      norm_num at h4
      omega
  rcases Nat.lt_or_ge n (1024 ^ 3) with h3 | h3
  · have hn1 : (1024 : ℚ) ≤ (n : ℚ) := by exact_mod_cast h1
    have hn2 : (1048576 : ℚ) ≤ (n : ℚ) := by
      norm_num at h2
      exact_mod_cast h2
    have hc0 : ¬((n : ℚ) < 1024) := not_lt.mpr hn1
    have hc1 : ¬((n : ℚ) / 1024 < 1024) := by
      rw [not_lt, le_div_iff₀ q0]
      linarith
    have hc2 : (n : ℚ) / 1024 / 1024 < 1024 := by
      rw [div_div, div_lt_iff₀ (by norm_num : (0 : ℚ) < 1024 * 1024)]
      norm_num at h3 ⊢
      exact_mod_cast h3
    have harg : (n : ℚ) / 1024 / 1024 = (n : ℚ) / 1024 ^ 2 := by ring
    refine ⟨2, by norm_num, ?_, ?_, ?_, ?_⟩
    · rw [← harg]
      simp only [format_size, unitNames, format_size_core, if_neg hc0,
        if_neg hc1, if_pos hc2]
      rw [String.append_assoc]
      rfl
    · intro j hj
      interval_cases j
      · rw [pow_zero, div_one]
        exact hn1
      · rw [pow_one, le_div_iff₀ q0]
        linarith
    · intro _
      rw [← harg]
      exact hc2
    · intro h4
      norm_num at h4
      omega
  rcases Nat.lt_or_ge n (1024 ^ 4) with h4 | h4
  · have hn1 : (1024 : ℚ) ≤ (n : ℚ) := by exact_mod_cast h1
    have hn2 : (1048576 : ℚ) ≤ (n : ℚ) := by
      norm_num at h2
      exact_mod_cast h2
    have hn3 : (1073741824 : ℚ) ≤ (n : ℚ) := by
      norm_num at h3
      exact_mod_cast h3
    have hc0 : ¬((n : ℚ) < 1024) := not_lt.mpr hn1
    have hc1 : ¬((n : ℚ) / 1024 < 1024) := by
      rw [not_lt, le_div_iff₀ q0]
      linarith
    have hc2 : ¬((n : ℚ) / 1024 / 1024 < 1024) := by
      rw [not_lt, div_div, le_div_iff₀ (by norm_num : (0 : ℚ) < 1024 * 1024)]
      linarith
    have hc3 : (n : ℚ) / 1024 / 1024 / 1024 < 1024 := by
      rw [div_div, div_div,
        div_lt_iff₀ (by norm_num : (0 : ℚ) < 1024 * (1024 * 1024))]
      norm_num at h4 ⊢
      exact_mod_cast h4
    have harg : (n : ℚ) / 1024 / 1024 / 1024 = (n : ℚ) / 1024 ^ 3 := by ring
    refine ⟨3, by norm_num, ?_, ?_, ?_, ?_⟩
    · rw [← harg]
      simp only [format_size, unitNames, format_size_core, if_neg hc0,
        if_neg hc1, if_neg hc2, if_pos hc3]
      rw [String.append_assoc]
      rfl
    · intro j hj
      interval_cases j
      · rw [pow_zero, div_one]
        exact hn1
      · rw [pow_one, le_div_iff₀ q0]
        linarith
      · rw [le_div_iff₀ (by positivity : (0 : ℚ) < 1024 ^ 2)]
        norm_num
        linarith
    · intro _
      rw [← harg]
      exact hc3
    · intro h5
      norm_num at h5
      omega
  · have hn1 : (1024 : ℚ) ≤ (n : ℚ) := by
      have : 1024 ≤ n := by norm_num at h4; omega
      exact_mod_cast this
    have hn2 : (1048576 : ℚ) ≤ (n : ℚ) := by
      have : 1048576 ≤ n := by norm_num at h4; omega
      exact_mod_cast this
    have hn3 : (1073741824 : ℚ) ≤ (n : ℚ) := by
      have : 1073741824 ≤ n := by norm_num at h4; omega
      exact_mod_cast this
    have hn4 : (1099511627776 : ℚ) ≤ (n : ℚ) := by
      have : 1099511627776 ≤ n := by norm_num at h4; omega
      exact_mod_cast this
    have hc0 : ¬((n : ℚ) < 1024) := not_lt.mpr hn1
    have hc1 : ¬((n : ℚ) / 1024 < 1024) := by
      rw [not_lt, le_div_iff₀ q0]
      linarith
    have hc2 : ¬((n : ℚ) / 1024 / 1024 < 1024) := by
      rw [not_lt, div_div, le_div_iff₀ (by norm_num : (0 : ℚ) < 1024 * 1024)]
      linarith
    have hc3 : ¬((n : ℚ) / 1024 / 1024 / 1024 < 1024) := by
      rw [not_lt, div_div, div_div,
        le_div_iff₀ (by norm_num : (0 : ℚ) < 1024 * (1024 * 1024))]
      linarith
    have harg : (n : ℚ) / 1024 / 1024 / 1024 / 1024 = (n : ℚ) / 1024 ^ 4 := by
      ring
    refine ⟨4, le_refl 4, ?_, ?_, ?_, ?_⟩
    · rw [← harg]
      simp only [format_size, unitNames, format_size_core, if_neg hc0,
        if_neg hc1, if_neg hc2, if_neg hc3]
      rfl
    · intro j hj
      interval_cases j
      · rw [pow_zero, div_one]
        exact hn1
      · rw [pow_one, le_div_iff₀ q0]
        linarith
      · rw [le_div_iff₀ (by positivity : (0 : ℚ) < 1024 ^ 2)]
        norm_num
        linarith
      · rw [le_div_iff₀ (by positivity : (0 : ℚ) < 1024 ^ 3)]
        norm_num
        linarith
    · intro h5
      exfalso
      norm_num at h4 h5
      omega
    · intro _
      rfl

theorem format_size_selects_largest_unit_witness :
    ∃ k, k ≤ 4 ∧
      format_size ((5242880 : Nat) : ℚ) =
        fmt2 (((5242880 : Nat) : ℚ) / 1024 ^ k) ++
          [" B", " KB", " MB", " GB", " TB"].getD k " TB" ∧
      (∀ j < k, 1024 ≤ ((5242880 : Nat) : ℚ) / 1024 ^ j) ∧
      ((5242880 : Nat) < 1024 ^ 4 → ((5242880 : Nat) : ℚ) / 1024 ^ k < 1024) ∧
      (1024 ^ 4 ≤ (5242880 : Nat) → k = 4) :=
  format_size_selects_largest_unit 5242880

/-- C9: `generate_extra` itself does not reject an unknown selector: it
falls through to the final branch and returns the empty structure, the same
value as tier `none`. -/
theorem unknown_selector_gives_empty_extra (s : String)
    (h : s ∉ validSizes) :
    generate_extra s = Json.obj [] ∧
    generate_extra s = generate_extra "none" := by
  simp only [validSizes, List.mem_cons, List.mem_singleton, not_or] at h
  obtain ⟨h1, h2, h3, h4⟩ := h
  constructor <;> simp [generate_extra, h1, h2, h3, h4]

theorem unknown_selector_gives_empty_extra_witness :
    generate_extra "bogus" = Json.obj [] ∧
    generate_extra "bogus" = generate_extra "none" :=
  unknown_selector_gives_empty_extra "bogus" (by decide)

/-- C10: a negative parsed count is not rejected: the batch's `assets`
sequence is empty, the file `assets_<count>_<tier>.json` is still written,
and the run reports exit status 0. -/
theorem negative_count_writes_empty_batch (n : Int) (hn : n < 0)
    (tier : String) (ht : tier ∈ validSizes) (g : Nat → Nat) :
    generate_batch_payload n tier g =
      Json.obj [("assets".data, Json.arr [])] ∧
    (main n tier g).exitCode = 0 ∧
    (main n tier g).written =
      some ("assets_" ++ toString n ++ "_" ++ tier ++ ".json",
            dumpJson (Json.obj [("assets".data, Json.arr [])]) 0) := by
  have h0 : n.toNat = 0 := Int.toNat_of_nonpos (le_of_lt hn)
  have hb : generate_batch_payload n tier g =
      Json.obj [("assets".data, Json.arr [])] := by
    unfold generate_batch_payload
    rw [h0]
    rfl
  refine ⟨hb, ?_, ?_⟩ <;> simp [main, ht, hb]

theorem negative_count_writes_empty_batch_witness :
    generate_batch_payload (-5) "small" (fun _ => 0) =
      Json.obj [("assets".data, Json.arr [])] ∧
    (main (-5) "small" (fun _ => 0)).exitCode = 0 ∧
    (main (-5) "small" (fun _ => 0)).written =
      some ("assets_" ++ toString (-5 : Int) ++ "_" ++ "small" ++ ".json",
            dumpJson (Json.obj [("assets".data, Json.arr [])]) 0) :=
  negative_count_writes_empty_batch (-5) (by decide) "small" (by decide)
    (fun _ => 0)

/-- C7: parsing the serialized output recovers a document equal to the
generated batch: the parse succeeds, yields exactly the N generated
(checksum, display, tier) records in order, and the generated document is
`batchJson` of those records — serialization is lossless for this data
model. -/
theorem serialization_roundtrip (n : Nat) (tier : String)
    (ht : tier ∈ validSizes) (g : Nat → Nat) :
    ∃ ps : List (List Char × List Char),
      generate_batch_payload (n : Int) tier g = batchJson ps tier ∧
      ps.length = n ∧
      parseBatch (dumpJson (generate_batch_payload (n : Int) tier g) 0) =
        some (ps.map (fun q => (q.1, q.2, tier))) := by
  obtain ⟨ps, h1, h2, h3⟩ := genAssets_shape tier g n 0
  have hb : generate_batch_payload (n : Int) tier g = batchJson ps tier := by
    unfold generate_batch_payload batchJson
    rw [Int.toNat_natCast, h1]
  exact ⟨ps, hb, h2, by rw [hb]; exact parseBatch_dump tier ht ps h3⟩

theorem serialization_roundtrip_witness :
    ∃ ps : List (List Char × List Char),
      generate_batch_payload ((0 : Nat) : Int) "none" (fun _ => 0) =
        batchJson ps "none" ∧
      ps.length = 0 ∧
      parseBatch
        (dumpJson (generate_batch_payload ((0 : Nat) : Int) "none"
          (fun _ => 0)) 0) =
        some (ps.map (fun q => (q.1, q.2, "none"))) :=
  serialization_roundtrip 0 "none" (by decide) (fun _ => 0)

end Aether
